import Mathlib

/-!
# Stock-App acquisition pipeline: shallow embedding and verification

This file embeds the acquisition-and-normalization pipeline of the
Stock-App repository (daily prices, monthly revenue, quarterly EPS,
capital and cash flow services) and proves or refutes the frozen claims
about it.

Conventions of the embedding:
* JavaScript strings are Lean `String`s; the JS helpers
  (`trim`, `replace(/,/g,"")`, `parseInt`, `parseFloat`) are modelled
  explicitly over `String.data` (`jsTrim`, `stripCommas`, `jsParseInt`,
  `jsParseFloat`).
* JS numbers produced by `parseFloat` are modelled exactly as scaled
  decimals (`Dec`, denoting `num / 10 ^ scale`); the pipeline never
  performs arithmetic on parsed values — it only constructs, stores and
  compares them — so the exact decimal reading is faithful.
  `jsParseFloat` models the finite-number fragment of the JS function
  (sign, digits, decimal point, optional exponent); the `Infinity`
  literal is not modelled, and `none` models `NaN`.
* The cheerio/JSON layers are abstracted to their tabular content: an
  HTML response is the list of matched tables, each with the texts of
  its header cells and the texts of its data-row cells; a TWSE/TPEX
  JSON response is its `stat` field and its `tables` array.
* Network and database effects are oracle inputs (`FetchOutcome`,
  `DbRead`, `DbWrite`): the embedded service functions are pure in the
  outcome of each outbound call, and additionally report how many
  fetcher invocations and upsert attempts they performed.
-/

/-! ## Exact decimal values (JS numbers as produced by the parsers) -/

/-- An exact decimal value `num / 10 ^ scale`.  The parsers below only
ever construct such values from digit strings; the pipeline never adds
or multiplies them, so this represents the JS numbers involved
faithfully and with decidable equality. -/
structure Dec where
  num : Int
  scale : Nat
deriving DecidableEq, Repr

/-- An integer-valued decimal. -/
def Dec.ofInt (n : Int) : Dec := ⟨n, 0⟩

instance (n : Nat) : OfNat Dec n := ⟨⟨n, 0⟩⟩

/-! ## JS string helpers -/

/-- JS `String.prototype.trim`: strip whitespace from both ends. -/
def jsTrim (s : String) : String :=
  ⟨List.reverse (List.dropWhile Char.isWhitespace
    (List.reverse (List.dropWhile Char.isWhitespace s.data)))⟩

/-- JS `value.replace(/,/g, "")`. -/
def stripCommas (s : String) : String :=
  ⟨s.data.filter (fun c => c ≠ ',')⟩

/-- JS `value.replace(/[^0-9-]/g, "")`: keep only digits and minus signs. -/
def cleanDigitsMinus (s : String) : String :=
  ⟨s.data.filter (fun c => c.isDigit || c = '-')⟩

/-- Value of a list of decimal digit characters. -/
def digitsVal (ds : List Char) : Nat :=
  ds.foldl (fun acc c => acc * 10 + (c.toNat - '0'.toNat)) 0

/-- JS `parseInt(s, 10)`: skip leading whitespace, optional sign, then the
longest prefix of digits; `none` models `NaN` (no digits found). -/
def jsParseInt (s : String) : Option Int :=
  let cs := s.data.dropWhile Char.isWhitespace
  match cs with
  | '-' :: rest =>
    let ds := rest.takeWhile Char.isDigit
    if ds = [] then none else some (-(digitsVal ds : Int))
  | '+' :: rest =>
    let ds := rest.takeWhile Char.isDigit
    if ds = [] then none else some (digitsVal ds : Int)
  | _ =>
    let ds := cs.takeWhile Char.isDigit
    if ds = [] then none else some (digitsVal ds : Int)

/-- Assemble a parsed mantissa and exponent into a `Dec`:
`negative`, integer digits, fraction digits, and a signed decimal
exponent (`expNeg`, `expMag`). -/
def buildDec (negative : Bool) (intPart fracPart : List Char)
    (expNeg : Bool) (expMag : Nat) : Dec :=
  let base : Int := (digitsVal (intPart ++ fracPart) : Int)
  let signed : Int := if negative then -base else base
  if expNeg then ⟨signed, fracPart.length + expMag⟩
  else ⟨signed * (10 : Int) ^ expMag, fracPart.length⟩

/-- JS `parseFloat(s)` (finite-number fragment): skip leading whitespace,
optional sign, digits with an optional decimal point (at least one digit
required), then an optional exponent that is only consumed when it has
at least one digit; `none` models `NaN`. -/
def jsParseFloat (s : String) : Option Dec :=
  let cs := s.data.dropWhile Char.isWhitespace
  let signed : Bool × List Char :=
    match cs with
    | '-' :: rest => (true, rest)
    | '+' :: rest => (false, rest)
    | _ => (false, cs)
  let negative := signed.1
  let body := signed.2
  let intPart := body.takeWhile Char.isDigit
  let afterInt := body.dropWhile Char.isDigit
  let fracSplit : List Char × List Char :=
    match afterInt with
    | '.' :: r => (r.takeWhile Char.isDigit, r.dropWhile Char.isDigit)
    | _ => ([], afterInt)
  let fracPart := fracSplit.1
  let afterFrac := fracSplit.2
  if intPart = [] ∧ fracPart = [] then none
  else
    let expPart : Bool × Nat :=
      match afterFrac with
      | 'e' :: '-' :: ds =>
        let d := ds.takeWhile Char.isDigit
        if d = [] then (false, 0) else (true, digitsVal d)
      | 'e' :: '+' :: ds =>
        let d := ds.takeWhile Char.isDigit
        if d = [] then (false, 0) else (false, digitsVal d)
      | 'e' :: ds =>
        let d := ds.takeWhile Char.isDigit
        if d = [] then (false, 0) else (false, digitsVal d)
      | 'E' :: '-' :: ds =>
        let d := ds.takeWhile Char.isDigit
        if d = [] then (false, 0) else (true, digitsVal d)
      | 'E' :: '+' :: ds =>
        let d := ds.takeWhile Char.isDigit
        if d = [] then (false, 0) else (false, digitsVal d)
      | 'E' :: ds =>
        let d := ds.takeWhile Char.isDigit
        if d = [] then (false, 0) else (false, digitsVal d)
      | _ => (false, 0)
    some (buildDec negative intPart fracPart expPart.1 expPart.2)

/-! ## Numeric normalizers -/

/-- Function `parseNumber` from `QuarterlyCashFlow.service.ts`: empty, `"-"` or
whitespace-only text is `0`; text with both parentheses is negated; all
characters other than digits and minus are stripped before `parseInt`;
a failed parse is `0`. -/
def parseNumber (value : String) : Int :=
  if value = "" ∨ value = "-" ∨ jsTrim value = "" then 0
  else
    let isNegative := value.data.contains '(' && value.data.contains ')'
    let cleanValue := cleanDigitsMinus value
    match jsParseInt cleanValue with
    | none => 0
    | some result => if isNegative then -(result.natAbs : Int) else result

/-- Function `parseNum` from the monthly revenue service: strip commas, trim, then
`parseFloat`; a failed parse is `0`. -/
def parseNum (val : String) : Dec :=
  let clean := jsTrim (stripCommas val)
  match jsParseFloat clean with
  | none => 0
  | some num => num

/-- The numeric conversion applied to daily-price cells
(`DailyPrice.service.ts`, `parseData` step 3): strip commas, trim, then
`parseFloat`; a failed parse (e.g. the `--` placeholder) is `0`. -/
def toNumCell (rawValue : String) : Dec :=
  let cleanValue := jsTrim (stripCommas rawValue)
  match jsParseFloat cleanValue with
  | none => 0
  | some numValue => numValue

/-! ## Period translation -/

/-- The regex `^(\d{4})-Q([1-4])$` used by the quarterly services and
models. -/
def quarterRegexMatch (s : String) : Bool :=
  match s.data with
  | [a, b, c, d, '-', 'Q', q] =>
    a.isDigit && b.isDigit && c.isDigit && d.isDigit &&
      (q = '1' || q = '2' || q = '3' || q = '4')
  | _ => false

/-- The padding `String(month).padStart(2, "0")` for the month values produced by
`quarterToSqlDate` (all at most 10). -/
def pad2 (n : Nat) : List Char :=
  if n < 10 then ['0', Nat.digitChar n]
  else [Nat.digitChar (n / 10), Nat.digitChar (n % 10)]

/-- Function `quarterToSqlDate` from `QuarterlyEPS.model.ts` (and its identical
copies in the capital and cash flow models): `YYYY-QN` becomes
`YYYY-MM-01` with month `(quarter - 1) * 3 + 1`; a malformed input
throws, modelled as `none`. -/
def quarterToSqlDate (s : String) : Option String :=
  if quarterRegexMatch s then
    let cs := s.data
    let quarter := (cs.getD 6 '0').toNat - '0'.toNat
    let month := (quarter - 1) * 3 + 1
    some ⟨cs.take 4 ++ '-' :: pad2 month ++ ['-', '0', '1']⟩
  else none

/-- Modelled from the spec: the repository defines `quarterToSqlDate` but
no inverse; spec §3 and §8 state that the storage key is bidirectionally
convertible with the quarter string, the inverse mapping recovering the
quarter from the month as `(month - 1) / 3 + 1`. -/
def storageDateToQuarter (s : String) : Option (String × Nat) :=
  match s.data with
  | [y1, y2, y3, y4, '-', m1, m2, '-', '0', '1'] =>
    if y1.isDigit && y2.isDigit && y3.isDigit && y4.isDigit &&
        m1.isDigit && m2.isDigit then
      let month := (m1.toNat - '0'.toNat) * 10 + (m2.toNat - '0'.toNat)
      if 1 ≤ month ∧ month ≤ 12 then
        some (⟨[y1, y2, y3, y4]⟩, (month - 1) / 3 + 1)
      else none
    else none
  | _ => none


/-! ## Record types -/

/-- Record type `QuarterlyEpsData`. -/
structure EpsRec where
  code : String
  name : String
  eps : Dec
deriving DecidableEq, Repr

/-- Record type `QuarterlyCapitalData`. -/
structure CapitalRec where
  code : String
  name : String
  capital : Int
deriving DecidableEq, Repr

/-- Record type `QuarterlyCashFlowData`. -/
structure CashFlowRec where
  code : String
  name : String
  operatingCashFlow : Int
  investingCashFlow : Int
  financingCashFlow : Int
  exchangeRateEffect : Int
  netCashChange : Int
  beginningCashBalance : Int
  endingCashBalance : Int
deriving DecidableEq, Repr

/-- Record type `MonthlyRevenueData`. -/
structure MonthlyRec where
  code : String
  name : String
  monthlyRevenue : Dec
  lastMonthRevenue : Dec
  lastYearMonthlyRevenue : Dec
  previousMonthChangePercent : Dec
  lastYearSameMonthChangePercent : Dec
  cumulativeRevenue : Dec
  lastYearCumulativeRevenue : Dec
  cumulativePreviousPeriodChangePercent : Dec
  remarks : Option String
deriving DecidableEq, Repr

/-- Record type `DailyPriceData`. -/
structure DailyRec where
  code : String
  name : String
  openPrice : Dec
  high : Dec
  low : Dec
  close : Dec
  volume : Dec
deriving DecidableEq, Repr

/-! ## MOPS HTML table extraction (EPS / capital / cash flow)

A `table.hasBorder` element is abstracted to the trimmed-relevant texts
of its `tr.tblHead th` header cells and the texts of the `td` cells of
its `tr.even, tr.odd` data rows. -/

/-- One matched HTML data table. -/
structure HTable where
  headers : List String
  rows : List (List String)
deriving DecidableEq, Repr

/-- The lookup `headers.findIndex(h => h.text().trim() === name)`: index of the
first header whose trimmed text equals `name`, `none` for `-1`. -/
def colIdx : List String → String → Option Nat
  | [], _ => none
  | h :: t, name =>
    if jsTrim h = name then some 0 else (colIdx t name).map (· + 1)

/-- The read `cells.eq(i).text()`: the cell text at index `i`, `""` when the
row has no cell there (an empty cheerio selection has empty text). -/
def cellAt (cells : List String) (i : Nat) : String :=
  cells.getD i ""

/-- Function `parseData` of `QuarterlyEPS.service.ts` on a single table: resolve
the three target columns by header name, skip the table if any is
missing, then emit a record per row whose trimmed code and name are
non-empty and whose EPS cell parses (`parseFloat` after comma
stripping). -/
def epsExtractTable (t : HTable) : List EpsRec :=
  match colIdx t.headers "公司代號", colIdx t.headers "公司名稱",
      colIdx t.headers "基本每股盈餘（元）" with
  | some i0, some i1, some i2 =>
    t.rows.filterMap (fun cells =>
      let code := jsTrim (cellAt cells i0)
      let name := jsTrim (cellAt cells i1)
      let epsRaw := jsTrim (cellAt cells i2)
      match jsParseFloat (stripCommas epsRaw) with
      | none => none
      | some eps =>
        if code ≠ "" ∧ name ≠ "" then some ⟨code, name, eps⟩ else none)
  | _, _, _ => []

/-- Function `parseData` of `QuarterlyEPS.service.ts` over all matched tables. -/
def parseDataEps (tables : List HTable) : List EpsRec :=
  tables.flatMap epsExtractTable

/-- Function `parseData` of `QuarterlyCapital.service.ts` on a single table:
like EPS but the value column is `股本`, parsed with `parseInt`. -/
def capitalExtractTable (t : HTable) : List CapitalRec :=
  match colIdx t.headers "公司代號", colIdx t.headers "公司名稱",
      colIdx t.headers "股本" with
  | some i0, some i1, some i2 =>
    t.rows.filterMap (fun cells =>
      let code := jsTrim (cellAt cells i0)
      let name := jsTrim (cellAt cells i1)
      let capitalRaw := jsTrim (cellAt cells i2)
      match jsParseInt (stripCommas capitalRaw) with
      | none => none
      | some capital =>
        if code ≠ "" ∧ name ≠ "" then some ⟨code, name, capital⟩ else none)
  | _, _, _ => []

/-- Function `parseData` of `QuarterlyCapital.service.ts` over all tables. -/
def parseDataCapital (tables : List HTable) : List CapitalRec :=
  tables.flatMap capitalExtractTable

/-- The nine target column names of the cash flow extractor. -/
def cashFlowColumns : List String :=
  ["公司代號", "公司名稱", "營業活動之淨現金流入（流出）",
   "投資活動之淨現金流入（流出）", "籌資活動之淨現金流入（流出）",
   "匯率變動對現金及約當現金之影響", "本期現金及約當現金增加（減少）數",
   "期初現金及約當現金餘額", "期末現金及約當現金餘額"]

/-- Function `parseData` of `QuarterlyCashFlow.service.ts` on a single table:
resolve the nine target columns by header name, skip the table if any
is missing, then emit a record per row whose trimmed code and name are
non-empty; the seven numeric cells go through `parseNumber` (so an
unparseable cell becomes `0` rather than dropping the row). -/
def cashFlowExtractTable (t : HTable) : List CashFlowRec :=
  match colIdx t.headers "公司代號", colIdx t.headers "公司名稱",
      colIdx t.headers "營業活動之淨現金流入（流出）",
      colIdx t.headers "投資活動之淨現金流入（流出）",
      colIdx t.headers "籌資活動之淨現金流入（流出）",
      colIdx t.headers "匯率變動對現金及約當現金之影響",
      colIdx t.headers "本期現金及約當現金增加（減少）數",
      colIdx t.headers "期初現金及約當現金餘額",
      colIdx t.headers "期末現金及約當現金餘額" with
  | some i0, some i1, some i2, some i3, some i4, some i5, some i6,
      some i7, some i8 =>
    t.rows.filterMap (fun cells =>
      let code := jsTrim (cellAt cells i0)
      let name := jsTrim (cellAt cells i1)
      if code ≠ "" ∧ name ≠ "" then
        some ⟨code, name,
          parseNumber (jsTrim (cellAt cells i2)),
          parseNumber (jsTrim (cellAt cells i3)),
          parseNumber (jsTrim (cellAt cells i4)),
          parseNumber (jsTrim (cellAt cells i5)),
          parseNumber (jsTrim (cellAt cells i6)),
          parseNumber (jsTrim (cellAt cells i7)),
          parseNumber (jsTrim (cellAt cells i8))⟩
      else none)
  | _, _, _, _, _, _, _, _, _ => []

/-- Function `parseData` of `QuarterlyCashFlow.service.ts` over all tables. -/
def parseDataCashFlow (tables : List HTable) : List CashFlowRec :=
  tables.flatMap cashFlowExtractTable

/-! ## Monthly revenue HTML extraction

A `table[border=5]` element is abstracted to the texts of the `td`
cells of its `tr[align=right]` rows; the document is the list of such
tables. -/

/-- One `tr[align=right]` row of a monthly revenue table: emit a record
when the row has exactly eleven cells and trimmed code and name are
non-empty; numeric cells go through `parseNum`, the remark becomes
`null` (`none`) when empty. -/
def monthlyParseRow (tds : List String) : Option MonthlyRec :=
  if tds.length ≠ 11 then none
  else
    let code := jsTrim (tds.getD 0 "")
    let name := jsTrim (tds.getD 1 "")
    let remarksRaw := jsTrim (tds.getD 10 "")
    if code ≠ "" ∧ name ≠ "" then
      some ⟨code, name,
        parseNum (tds.getD 2 ""), parseNum (tds.getD 3 ""),
        parseNum (tds.getD 4 ""), parseNum (tds.getD 5 ""),
        parseNum (tds.getD 6 ""), parseNum (tds.getD 7 ""),
        parseNum (tds.getD 8 ""), parseNum (tds.getD 9 ""),
        if remarksRaw = "" then none else some remarksRaw⟩
    else none

/-- Function `parseData` of the monthly revenue service: `$("table[border=5]")
.slice(0, -1)` drops the last matched table, and within each processed
table `.find("tr[align=right]").slice(0, -1)` drops its last data row. -/
def parseDataMonthly (tables : List (List (List String))) : List MonthlyRec :=
  tables.dropLast.flatMap (fun rows => rows.dropLast.filterMap monthlyParseRow)

/-! ## Daily price JSON table extraction (`DailyPrice.service.ts`) -/

/-- A raw JSON table: ordered field names plus rows of cell strings. -/
structure RawTable where
  fields : List String
  data : List (List String)
deriving DecidableEq, Repr

/-- A value stored in the dynamically assembled row object: price-class
target keys get converted numbers, identity keys keep the raw string. -/
inductive CellVal where
  | str : String → CellVal
  | num : Dec → CellVal
deriving DecidableEq, Repr

/-- The `fieldIndices` map (`fields.forEach((name, i) => m[name] = i)`):
built in order, so a duplicated field name keeps its last index. -/
def fieldIndex (fields : List String) (name : String) : Option Nat :=
  match fields with
  | [] => none
  | f :: t =>
    match fieldIndex t name with
    | some j => some (j + 1)
    | none => if f = name then some 0 else none

/-- Assignment `obj[targetKey] = v` on a JS object modelled as an ordered
association list: overwrite an existing key, append a new one. -/
def assignKey (obj : List (String × CellVal)) (k : String) (v : CellVal) :
    List (String × CellVal) :=
  if obj.any (fun p => p.1 = k) then
    obj.map (fun p => if p.1 = k then (k, v) else p)
  else obj ++ [(k, v)]

/-- Whether a daily-price target key takes the numeric conversion. -/
def isNumericKey (k : String) : Bool :=
  k = "open" || k = "high" || k = "low" || k = "close" || k = "volume"

/-- The raw-to-object conversion of one column
(`DailyPrice.service.ts`, `parseData` step 3). -/
def convertCell (targetKey : String) (rawValue : String) : CellVal :=
  if isNumericKey targetKey then .num (toNumCell rawValue) else .str rawValue

/-- The `columnsToInclude.forEach` loop of `DailyPrice.service.ts`
`parseData`: walk the required column names (with the target keys in
lockstep, as `overrideColumnNames[index]` does), skip a column whose
name is absent from the field map or whose index is out of bounds for
this row, and assign the converted value otherwise.  Both call sites
pass `columnsToInclude` and `overrideColumnNames` of equal length. -/
def buildRowObj (fields row : List String) :
    List String → List String → List (String × CellVal) →
      List (String × CellVal)
  | [], _, obj => obj
  | name :: cols, keys, obj =>
    let obj' :=
      match fieldIndex fields name with
      | none => obj
      | some originalIndex =>
        if originalIndex < row.length then
          let targetKey := keys.headD ""
          assignKey obj targetKey
            (convertCell targetKey (row.getD originalIndex ""))
        else obj
    buildRowObj fields row cols keys.tail obj'

/-- Function `parseData` of `DailyPrice.service.ts`: build the row object per
data row and keep it only when it has as many keys as there are target
keys (step 4's completeness check).  The emitted objects are the
`Partial<DailyPriceData>` values that the source then casts. -/
def parseDataDaily (t : RawTable) (columnsToInclude overrideColumnNames : List String) :
    List (List (String × CellVal)) :=
  t.data.filterMap (fun row =>
    let obj := buildRowObj t.fields row columnsToInclude overrideColumnNames []
    if obj.length ≠ overrideColumnNames.length then none else some obj)

/-- JS `obj.find` for the cast read-out of a string field. -/
def lookupStr (obj : List (String × CellVal)) (k : String) : String :=
  match obj.find? (fun p => p.1 = k) with
  | some (_, .str s) => s
  | _ => ""

/-- JS `obj.find` for the cast read-out of a numeric field. -/
def lookupNum (obj : List (String × CellVal)) (k : String) : Dec :=
  match obj.find? (fun p => p.1 = k) with
  | some (_, .num q) => q
  | _ => 0

/-- The `obj as DailyPriceData` cast: read the seven fields out of the
assembled object. -/
def toDailyRec (obj : List (String × CellVal)) : DailyRec :=
  ⟨lookupStr obj "code", lookupStr obj "name", lookupNum obj "open",
   lookupNum obj "high", lookupNum obj "low", lookupNum obj "close",
   lookupNum obj "volume"⟩

/-- TWSE column names requested by `fetchTwse`. -/
def twseColumns : List String :=
  ["證券代號", "證券名稱", "開盤價", "最高價", "最低價", "收盤價", "成交股數"]

/-- TWSE target keys requested by `fetchTwse`. -/
def twseKeys : List String :=
  ["code", "name", "open", "high", "low", "close", "volume"]

/-- TPEX column names requested by `fetchTpex`. -/
def tpexColumns : List String :=
  ["代號", "名稱", "收盤", "開盤", "最高", "最低", "成交股數"]

/-- TPEX target keys requested by `fetchTpex` (note the different
order: close before open). -/
def tpexKeys : List String :=
  ["code", "name", "close", "open", "high", "low", "volume"]

/-! ## Source fetchers

Each outbound request is an oracle `FetchOutcome`: either the transport
threw, or a response arrived with an HTTP status and a body.  URL and
form-data construction only shape the outbound request and are
absorbed into the oracle. -/

/-- Outcome of one outbound HTTP request. -/
inductive FetchOutcome (β : Type) where
  | throw : FetchOutcome β
  | resp : Nat → β → FetchOutcome β
deriving DecidableEq, Repr

/-- A TWSE/TPEX JSON response body: the `stat` field and the `tables`
array (`none` models a body whose `tables` is not an array). -/
structure QuoteResponse where
  stat : String
  tables : Option (List RawTable)
deriving DecidableEq, Repr

/-- Function `fetchFromSource` of `QuarterlyEPS.service.ts`: any transport error
or non-200 status is caught and yields `[]`; otherwise the HTML is
parsed. -/
def fetchFromSourceEps (o : FetchOutcome (List HTable)) : List EpsRec :=
  match o with
  | .throw => []
  | .resp status html => if status ≠ 200 then [] else parseDataEps html

/-- Function `fetchFromSource` of `QuarterlyCapital.service.ts`. -/
def fetchFromSourceCapital (o : FetchOutcome (List HTable)) : List CapitalRec :=
  match o with
  | .throw => []
  | .resp status html => if status ≠ 200 then [] else parseDataCapital html

/-- Function `fetchFromSource` of `QuarterlyCashFlow.service.ts`. -/
def fetchFromSourceCashFlow (o : FetchOutcome (List HTable)) : List CashFlowRec :=
  match o with
  | .throw => []
  | .resp status html => if status ≠ 200 then [] else parseDataCashFlow html

/-- Function `fetchFromSource` of the monthly revenue service (the big5 decoding
of the body is absorbed into the abstraction of the body as its list of
tables). -/
def fetchFromSourceMonthly (o : FetchOutcome (List (List (List String)))) :
    List MonthlyRec :=
  match o with
  | .throw => []
  | .resp status body => if status ≠ 200 then [] else parseDataMonthly body

/-- Function `fetchTwse` of `DailyPrice.service.ts`: requires HTTP 200 and
`stat === "OK"`, a `tables` array, and a table at index 8; each failed
check (or a thrown transport error) yields `[]`. -/
def fetchTwse (o : FetchOutcome QuoteResponse) : List DailyRec :=
  match o with
  | .throw => []
  | .resp status d =>
    if status ≠ 200 ∨ d.stat ≠ "OK" then []
    else
      match d.tables with
      | none => []
      | some tables =>
        if tables.length > 8 then
          (parseDataDaily (tables.getD 8 ⟨[], []⟩) twseColumns twseKeys).map
            toDailyRec
        else []

/-- Function `fetchTpex` of `DailyPrice.service.ts`: like `fetchTwse` but `stat`
may be `"ok"` or `"OK"`, the data sits in table 0, and identifiers of
length ≥ 6 are filtered out after extraction. -/
def fetchTpex (o : FetchOutcome QuoteResponse) : List DailyRec :=
  match o with
  | .throw => []
  | .resp status d =>
    if status ≠ 200 ∨ (d.stat ≠ "ok" ∧ d.stat ≠ "OK") then []
    else
      match d.tables with
      | none => []
      | some tables =>
        if tables.length > 0 then
          ((parseDataDaily (tables.getD 0 ⟨[], []⟩) tpexColumns tpexKeys).map
            toDailyRec).filter (fun row => row.code.length < 6)
        else []

/-! ## Persistence contracts (model layer)

Database reads and writes are oracle outcomes.  A read outcome is the
stored record set or a thrown storage error; a write outcome is per
insert statement. -/

/-- Outcome of a storage read. -/
inductive DbRead (α : Type) where
  | ok : List α → DbRead α
  | fail : DbRead α
deriving DecidableEq, Repr

/-- Outcome of one upsert statement. -/
inductive DbWrite where
  | ok : DbWrite
  | fail : DbWrite
deriving DecidableEq, Repr

/-- The errors a service can surface to its controller. -/
inductive ServiceError where
  | invalidDate : ServiceError
  | dataNotFound : ServiceError
  | writeFailed : ServiceError
deriving DecidableEq, Repr

/-- Functions `getQuarterlyEpsByDate` / `getQuarterlyCapitalByDate` /
`getQuarterlyCashFlowByDate` (the three are line-for-line identical up
to the selected field list): `quarterToSqlDate` throws on a malformed
period *outside* the try block, while a storage failure inside it is
caught, logged and turned into `[]`. -/
def getQuarterlyByDate {α : Type} (date : String) (o : DbRead α) :
    Except ServiceError (List α) :=
  match quarterToSqlDate date with
  | none => .error .invalidDate
  | some _ =>
    match o with
    | .ok records => .ok records
    | .fail => .ok []

/-- Functions `saveQuarterlyEps` / `saveQuarterlyCapital` / `saveQuarterlyCashFlow`:
a no-op on an empty batch; otherwise upsert the referenced stocks and
then the period rows, rethrowing any storage error. -/
def saveQuarterly {α : Type} (data : List α) (date : String)
    (stocksWrite rowsWrite : DbWrite) : Except ServiceError Unit :=
  if data.length = 0 then .ok ()
  else
    match quarterToSqlDate date with
    | none => .error .invalidDate
    | some _ =>
      match stocksWrite with
      | .fail => .error .writeFailed
      | .ok =>
        match rowsWrite with
        | .fail => .error .writeFailed
        | .ok => .ok ()

/-- Functions `DailyPriceModel.getDailyPricesByDate` /
`MonthlyRevenueModel.getMonthlyRevenuesByDate`: no period validation;
a storage failure is caught, logged and turned into `[]`. -/
def getByDateNoValidate {α : Type} (o : DbRead α) : List α :=
  match o with
  | .ok records => records
  | .fail => []

/-- Functions `saveStocksAndPrices` / `saveMonthlyRevenues`: a no-op on an empty
batch; otherwise upsert stocks then period rows, rethrowing any
storage error. -/
def saveNoValidate {α : Type} (data : List α)
    (stocksWrite rowsWrite : DbWrite) : Except ServiceError Unit :=
  if data.length = 0 then .ok ()
  else
    match stocksWrite with
    | .fail => .error .writeFailed
    | .ok =>
      match rowsWrite with
      | .fail => .error .writeFailed
      | .ok => .ok ()

/-! ## Cache-or-crawl orchestrators (service layer)

`ServiceRun` is the observable behaviour of one service call: the value
returned or error thrown, how many source-fetcher invocations were
made, and how many upsert attempts were made. -/

/-- Result and effect counts of one service call. -/
structure ServiceRun (α : Type) where
  result : Except ServiceError (List α)
  fetchCalls : Nat
  saveCalls : Nat
deriving Repr

/-- The environment of one quarterly-service call: the cache read
outcome, the two source fetch outcomes, and the two upsert outcomes. -/
structure QuarterlyEnv (β α : Type) where
  dbRead : DbRead α
  sii : FetchOutcome β
  otc : FetchOutcome β
  stocksWrite : DbWrite
  rowsWrite : DbWrite

/-- Function `fetchQuarterlyEps` of `QuarterlyEPS.service.ts`: validate the
`YYYY-QN` shape, return the cached rows when the read is non-empty,
otherwise crawl both market types, *return `[]`* when the crawl is
empty, and otherwise save and return the concatenation. -/
def fetchQuarterlyEps (env : QuarterlyEnv (List HTable) EpsRec)
    (dateStr : String) : ServiceRun EpsRec :=
  if quarterRegexMatch dateStr = false then ⟨.error .invalidDate, 0, 0⟩
  else
    match getQuarterlyByDate dateStr env.dbRead with
    | .error e => ⟨.error e, 0, 0⟩
    | .ok existingData =>
      if existingData.length > 0 then ⟨.ok existingData, 0, 0⟩
      else
        let siiData := fetchFromSourceEps env.sii
        let otcData := fetchFromSourceEps env.otc
        let allData := siiData ++ otcData
        if allData.length = 0 then ⟨.ok [], 2, 0⟩
        else
          match saveQuarterly allData dateStr env.stocksWrite env.rowsWrite with
          | .error e => ⟨.error e, 2, 1⟩
          | .ok _ => ⟨.ok allData, 2, 1⟩

/-- Function `fetchQuarterlyCapital` of `QuarterlyCapital.service.ts`: same
orchestration but an empty crawl *throws* `DataNotFoundException`. -/
def fetchQuarterlyCapital (env : QuarterlyEnv (List HTable) CapitalRec)
    (dateStr : String) : ServiceRun CapitalRec :=
  if quarterRegexMatch dateStr = false then ⟨.error .invalidDate, 0, 0⟩
  else
    match getQuarterlyByDate dateStr env.dbRead with
    | .error e => ⟨.error e, 0, 0⟩
    | .ok existingData =>
      if existingData.length > 0 then ⟨.ok existingData, 0, 0⟩
      else
        let siiData := fetchFromSourceCapital env.sii
        let otcData := fetchFromSourceCapital env.otc
        let allData := siiData ++ otcData
        if allData.length = 0 then ⟨.error .dataNotFound, 2, 0⟩
        else
          match saveQuarterly allData dateStr env.stocksWrite env.rowsWrite with
          | .error e => ⟨.error e, 2, 1⟩
          | .ok _ => ⟨.ok allData, 2, 1⟩

/-- Function `fetchQuarterlyCashFlow` of `QuarterlyCashFlow.service.ts`: same
orchestration as capital — an empty crawl throws
`DataNotFoundException`. -/
def fetchQuarterlyCashFlow (env : QuarterlyEnv (List HTable) CashFlowRec)
    (dateStr : String) : ServiceRun CashFlowRec :=
  if quarterRegexMatch dateStr = false then ⟨.error .invalidDate, 0, 0⟩
  else
    match getQuarterlyByDate dateStr env.dbRead with
    | .error e => ⟨.error e, 0, 0⟩
    | .ok existingData =>
      if existingData.length > 0 then ⟨.ok existingData, 0, 0⟩
      else
        let siiData := fetchFromSourceCashFlow env.sii
        let otcData := fetchFromSourceCashFlow env.otc
        let allData := siiData ++ otcData
        if allData.length = 0 then ⟨.error .dataNotFound, 2, 0⟩
        else
          match saveQuarterly allData dateStr env.stocksWrite env.rowsWrite with
          | .error e => ⟨.error e, 2, 1⟩
          | .ok _ => ⟨.ok allData, 2, 1⟩

/-- The environment of one daily-price or monthly-revenue call. -/
structure SimpleEnv (β α : Type) where
  dbRead : DbRead α
  first : FetchOutcome β
  second : FetchOutcome β
  stocksWrite : DbWrite
  rowsWrite : DbWrite

/-- Function `DailyPriceService.fetchDailyPrices`: no period validation in the
service (the controller validates); cached rows are returned as-is;
otherwise both exchanges are crawled and an empty crawl *returns `[]`*.
The `dateStr.split('-')` destructuring only feeds the outbound URLs and
is absorbed into the fetch oracles. -/
def fetchDailyPrices (env : SimpleEnv QuoteResponse DailyRec)
    (_dateStr : String) : ServiceRun DailyRec :=
  let existingData := getByDateNoValidate env.dbRead
  if existingData.length > 0 then ⟨.ok existingData, 0, 0⟩
  else
    let twseData := fetchTwse env.first
    let tpexData := fetchTpex env.second
    let allData := twseData ++ tpexData
    if allData.length = 0 then ⟨.ok [], 2, 0⟩
    else
      match saveNoValidate allData env.stocksWrite env.rowsWrite with
      | .error e => ⟨.error e, 2, 1⟩
      | .ok _ => ⟨.ok allData, 2, 1⟩

/-- Function `fetchMonthlyRevenues` of the monthly revenue service: cached rows
are returned as-is; otherwise both market types are crawled and an
empty crawl *returns `[]`* (the ROC-year/month computation only feeds
the outbound URLs and is absorbed into the fetch oracles). -/
def fetchMonthlyRevenues (env : SimpleEnv (List (List (List String))) MonthlyRec)
    (_dateStr : String) : ServiceRun MonthlyRec :=
  let existingData := getByDateNoValidate env.dbRead
  if existingData.length > 0 then ⟨.ok existingData, 0, 0⟩
  else
    let siiData := fetchFromSourceMonthly env.first
    let otcData := fetchFromSourceMonthly env.second
    let allData := siiData ++ otcData
    if allData.length = 0 then ⟨.ok [], 2, 0⟩
    else
      match saveNoValidate allData env.stocksWrite env.rowsWrite with
      | .error e => ⟨.error e, 2, 1⟩
      | .ok _ => ⟨.ok allData, 2, 1⟩

/-! ## Permutations of tabular payloads (for the column-order claims) -/

/-- Apply a permutation `σ` of `Fin n` to a list of cells: entry `i` of
the result is entry `σ i` of the input (entries past the end read as
`""`, the empty cell). -/
def permute (n : Nat) (σ : Equiv.Perm (Fin n)) (l : List String) : List String :=
  List.ofFn (fun i => l.getD (σ i).val "")

/-! ## Claim C1: zero-record crawl policy -/

/-- C1, counterexample: with an empty cache read and both sources
yielding zero records, the quarterly EPS operation and the daily price
operation return a successful empty record set — neither signals a
not-found error, contradicting the claim that all four statement-type
operations do. -/
theorem C1_counterexample :
    (fetchQuarterlyEps ⟨.ok [], .resp 200 [], .resp 200 [], .ok, .ok⟩
        "2024-Q1").result = .ok [] ∧
    (fetchDailyPrices ⟨.ok [], .resp 200 ⟨"OK", some []⟩,
        .resp 200 ⟨"ok", some []⟩, .ok, .ok⟩ "2024-01-02").result = .ok [] := by
  constructor <;> rfl

/-- C1, amended: when the cache read is empty and both sources yield
zero records, quarterly capital and quarterly cash flow signal a
not-found error, while quarterly EPS, daily price and monthly revenue
return a valid empty record set without error. -/
theorem C1_amended :
    (∀ (env : QuarterlyEnv (List HTable) EpsRec) (d : String),
      quarterRegexMatch d = true →
      getQuarterlyByDate d env.dbRead = .ok [] →
      fetchFromSourceEps env.sii = [] → fetchFromSourceEps env.otc = [] →
      fetchQuarterlyEps env d = ⟨.ok [], 2, 0⟩) ∧
    (∀ (env : QuarterlyEnv (List HTable) CapitalRec) (d : String),
      quarterRegexMatch d = true →
      getQuarterlyByDate d env.dbRead = .ok [] →
      fetchFromSourceCapital env.sii = [] →
      fetchFromSourceCapital env.otc = [] →
      fetchQuarterlyCapital env d = ⟨.error .dataNotFound, 2, 0⟩) ∧
    (∀ (env : QuarterlyEnv (List HTable) CashFlowRec) (d : String),
      quarterRegexMatch d = true →
      getQuarterlyByDate d env.dbRead = .ok [] →
      fetchFromSourceCashFlow env.sii = [] →
      fetchFromSourceCashFlow env.otc = [] →
      fetchQuarterlyCashFlow env d = ⟨.error .dataNotFound, 2, 0⟩) ∧
    (∀ (env : SimpleEnv QuoteResponse DailyRec) (d : String),
      getByDateNoValidate env.dbRead = [] →
      fetchTwse env.first = [] → fetchTpex env.second = [] →
      fetchDailyPrices env d = ⟨.ok [], 2, 0⟩) ∧
    (∀ (env : SimpleEnv (List (List (List String))) MonthlyRec) (d : String),
      getByDateNoValidate env.dbRead = [] →
      fetchFromSourceMonthly env.first = [] →
      fetchFromSourceMonthly env.second = [] →
      fetchMonthlyRevenues env d = ⟨.ok [], 2, 0⟩) := by
  refine ⟨?_, ?_, ?_, ?_, ?_⟩ <;>
    intro env d h1 h2 h3 <;>
    first
      | (intro h4
         simp [fetchQuarterlyEps, fetchQuarterlyCapital, fetchQuarterlyCashFlow,
           h1, h2, h3, h4])
      | simp [fetchDailyPrices, fetchMonthlyRevenues, h1, h2, h3]

/-- C1, amended, witness at concrete inputs. -/
theorem C1_amended_witness :
    fetchQuarterlyEps ⟨.ok [], .throw, .throw, .ok, .ok⟩ "2024-Q1" =
      ⟨.ok [], 2, 0⟩ ∧
    fetchQuarterlyCapital ⟨.ok [], .throw, .throw, .ok, .ok⟩ "2024-Q1" =
      ⟨.error .dataNotFound, 2, 0⟩ ∧
    fetchQuarterlyCashFlow ⟨.ok [], .throw, .throw, .ok, .ok⟩ "2024-Q1" =
      ⟨.error .dataNotFound, 2, 0⟩ ∧
    fetchDailyPrices ⟨.ok [], .throw, .throw, .ok, .ok⟩ "2024-01-02" =
      ⟨.ok [], 2, 0⟩ ∧
    fetchMonthlyRevenues ⟨.ok [], .throw, .throw, .ok, .ok⟩ "2024-01" =
      ⟨.ok [], 2, 0⟩ :=
  ⟨C1_amended.1 _ _ rfl rfl rfl rfl,
   C1_amended.2.1 _ _ rfl rfl rfl rfl,
   C1_amended.2.2.1 _ _ rfl rfl rfl rfl,
   C1_amended.2.2.2.1 _ _ rfl rfl rfl,
   C1_amended.2.2.2.2 _ _ rfl rfl rfl⟩

/-! ## Claim C3: cache hit performs no fetch and no write -/

/-- C3: whenever the persistence read returns a non-empty record set,
every fetch operation returns exactly the cached set, invokes no source
fetcher and attempts no upsert. -/
theorem C3_cache_hit :
    (∀ (env : QuarterlyEnv (List HTable) EpsRec) (d : String) (rs : List EpsRec),
      quarterRegexMatch d = true → getQuarterlyByDate d env.dbRead = .ok rs →
      rs ≠ [] → fetchQuarterlyEps env d = ⟨.ok rs, 0, 0⟩) ∧
    (∀ (env : QuarterlyEnv (List HTable) CapitalRec) (d : String)
        (rs : List CapitalRec),
      quarterRegexMatch d = true → getQuarterlyByDate d env.dbRead = .ok rs →
      rs ≠ [] → fetchQuarterlyCapital env d = ⟨.ok rs, 0, 0⟩) ∧
    (∀ (env : QuarterlyEnv (List HTable) CashFlowRec) (d : String)
        (rs : List CashFlowRec),
      quarterRegexMatch d = true → getQuarterlyByDate d env.dbRead = .ok rs →
      rs ≠ [] → fetchQuarterlyCashFlow env d = ⟨.ok rs, 0, 0⟩) ∧
    (∀ (env : SimpleEnv QuoteResponse DailyRec) (d : String) (rs : List DailyRec),
      getByDateNoValidate env.dbRead = rs → rs ≠ [] →
      fetchDailyPrices env d = ⟨.ok rs, 0, 0⟩) ∧
    (∀ (env : SimpleEnv (List (List (List String))) MonthlyRec) (d : String)
        (rs : List MonthlyRec),
      getByDateNoValidate env.dbRead = rs → rs ≠ [] →
      fetchMonthlyRevenues env d = ⟨.ok rs, 0, 0⟩) := by
  refine ⟨?_, ?_, ?_, ?_, ?_⟩ <;> intro env d rs h1 h2 <;>
    first
      | (intro h3
         have hlen : rs.length > 0 := List.length_pos.mpr h3
         simp [fetchQuarterlyEps, fetchQuarterlyCapital, fetchQuarterlyCashFlow,
           h1, h2, hlen])
      | (have hlen : rs.length > 0 := List.length_pos.mpr h2
         simp [fetchDailyPrices, fetchMonthlyRevenues, h1, hlen])

/-- C3, witness: a one-record cache hit for each service. -/
theorem C3_cache_hit_witness :
    fetchQuarterlyEps ⟨.ok [⟨"1101", "台泥", 1⟩], .throw, .throw, .ok, .ok⟩
        "2024-Q1" = ⟨.ok [⟨"1101", "台泥", 1⟩], 0, 0⟩ ∧
    fetchQuarterlyCapital ⟨.ok [⟨"1101", "台泥", 5⟩], .throw, .throw, .ok, .ok⟩
        "2024-Q1" = ⟨.ok [⟨"1101", "台泥", 5⟩], 0, 0⟩ ∧
    fetchQuarterlyCashFlow
        ⟨.ok [⟨"1101", "台泥", 1, 2, 3, 4, 5, 6, 7⟩], .throw, .throw, .ok, .ok⟩
        "2024-Q1" = ⟨.ok [⟨"1101", "台泥", 1, 2, 3, 4, 5, 6, 7⟩], 0, 0⟩ ∧
    fetchDailyPrices
        ⟨.ok [⟨"1101", "台泥", 1, 2, 3, 4, 5⟩], .throw, .throw, .ok, .ok⟩
        "2024-01-02" = ⟨.ok [⟨"1101", "台泥", 1, 2, 3, 4, 5⟩], 0, 0⟩ ∧
    fetchMonthlyRevenues
        ⟨.ok [⟨"1101", "台泥", 1, 2, 3, 4, 5, 6, 7, 8, none⟩], .throw, .throw,
          .ok, .ok⟩ "2024-01" =
      ⟨.ok [⟨"1101", "台泥", 1, 2, 3, 4, 5, 6, 7, 8, none⟩], 0, 0⟩ :=
  ⟨C3_cache_hit.1 _ _ _ rfl rfl (by decide),
   C3_cache_hit.2.1 _ _ _ rfl rfl (by decide),
   C3_cache_hit.2.2.1 _ _ _ rfl rfl (by decide),
   C3_cache_hit.2.2.2.1 _ _ _ rfl (by decide),
   C3_cache_hit.2.2.2.2 _ _ _ rfl (by decide)⟩

/-! ## Claim C8: asymmetric persistence failure handling -/

/-- On a valid period key the quarterly read never throws: it returns
the stored rows, or `[]` when the read failed. -/
theorem getQuarterlyByDate_of_valid {α : Type} (d : String)
    (h : quarterRegexMatch d = true) (o : DbRead α) :
    getQuarterlyByDate d o = .ok (getByDateNoValidate o) := by
  unfold getQuarterlyByDate quarterToSqlDate getByDateNoValidate
  cases o <;> simp [h]

/-- C8: for a valid period key, a failing storage read returns an empty
record set (identical to an empty-cache read, and the orchestrator then
proceeds to crawl), while a failing upsert write surfaces an error to
the caller. -/
theorem C8_persistence_asymmetry :
    (∀ (d : String), quarterRegexMatch d = true →
      getQuarterlyByDate (α := EpsRec) d .fail = .ok [] ∧
      getQuarterlyByDate (α := EpsRec) d .fail =
        getQuarterlyByDate d (.ok [])) ∧
    (getByDateNoValidate (α := DailyRec) .fail = [] ∧
      getByDateNoValidate (α := DailyRec) .fail =
        getByDateNoValidate (.ok [])) ∧
    (∀ (env : QuarterlyEnv (List HTable) EpsRec) (d : String),
      quarterRegexMatch d = true → env.dbRead = .fail →
      (fetchQuarterlyEps env d).fetchCalls = 2) ∧
    (∀ (data : List EpsRec) (d : String) (w : DbWrite),
      quarterRegexMatch d = true → data ≠ [] →
      saveQuarterly data d .fail w = .error .writeFailed ∧
      saveQuarterly data d .ok .fail = .error .writeFailed) ∧
    (∀ (data : List DailyRec) (w : DbWrite), data ≠ [] →
      saveNoValidate data .fail w = .error .writeFailed ∧
      saveNoValidate data .ok .fail = .error .writeFailed) := by
  refine ⟨?_, ?_, ?_, ?_, ?_⟩
  · intro d hd
    simp [getQuarterlyByDate_of_valid d hd, getByDateNoValidate]
  · simp [getByDateNoValidate]
  · intro env d hd hr
    have hget : getQuarterlyByDate (α := EpsRec) d env.dbRead = .ok [] := by
      rw [getQuarterlyByDate_of_valid d hd, hr]
      rfl
    simp [fetchQuarterlyEps, hd, hget]
    split
    · rfl
    · split <;> rfl
  · intro data d w hd hdata
    have hlen : ¬data.length = 0 := by simpa [List.length_eq_zero] using hdata
    constructor <;>
      simp [saveQuarterly, hlen, quarterToSqlDate, hd]
  · intro data w hdata
    have hlen : ¬data.length = 0 := by simpa [List.length_eq_zero] using hdata
    constructor <;> simp [saveNoValidate, hlen]

/-- C8, witness at concrete inputs. -/
theorem C8_persistence_asymmetry_witness :
    (getQuarterlyByDate (α := EpsRec) "2024-Q1" .fail = .ok [] ∧
      getQuarterlyByDate (α := EpsRec) "2024-Q1" .fail =
        getQuarterlyByDate "2024-Q1" (.ok [])) ∧
    (fetchQuarterlyEps ⟨.fail, .throw, .throw, .ok, .ok⟩
        "2024-Q1").fetchCalls = 2 ∧
    (saveQuarterly [(⟨"1101", "台泥", 1⟩ : EpsRec)] "2024-Q1" .fail .ok =
        .error .writeFailed ∧
      saveQuarterly [(⟨"1101", "台泥", 1⟩ : EpsRec)] "2024-Q1" .ok .fail =
        .error .writeFailed) ∧
    (saveNoValidate [(⟨"1101", "台泥", 1, 2, 3, 4, 5⟩ : DailyRec)] .fail .ok =
        .error .writeFailed ∧
      saveNoValidate [(⟨"1101", "台泥", 1, 2, 3, 4, 5⟩ : DailyRec)] .ok .fail =
        .error .writeFailed) :=
  ⟨C8_persistence_asymmetry.1 _ rfl,
   C8_persistence_asymmetry.2.2.1 _ _ rfl rfl,
   C8_persistence_asymmetry.2.2.2.1 _ _ .ok rfl (by decide),
   C8_persistence_asymmetry.2.2.2.2 _ .ok (by decide)⟩

/-! ## Claim C10: monthly revenue parser truncation -/

/-- C10: the monthly revenue parser never reads the last matched table
of the document, nor the last data row of any processed table —
replacing either with arbitrary content leaves the extraction
unchanged, so records present only there are never emitted. -/
theorem C10_monthly_truncation :
    (∀ (ts : List (List (List String))) (t1 t2 : List (List String)),
      parseDataMonthly (ts ++ [t1]) = parseDataMonthly (ts ++ [t2])) ∧
    (∀ (pre post : List (List (List String))) (rows : List (List String))
        (r1 r2 : List String), post ≠ [] →
      parseDataMonthly (pre ++ [rows ++ [r1]] ++ post) =
        parseDataMonthly (pre ++ [rows ++ [r2]] ++ post)) := by
  constructor
  · intro ts t1 t2
    simp [parseDataMonthly, List.dropLast_concat]
  · intro pre post rows r1 r2 hpost
    obtain ⟨p, ps, rfl⟩ := List.exists_cons_of_ne_nil hpost
    simp [parseDataMonthly, List.dropLast_append_cons, List.dropLast_concat]

/-- C10, witness: a record sitting in the final table, or in the final
row of a processed table, does not appear in the output. -/
theorem C10_monthly_truncation_witness :
    parseDataMonthly
        [[["1101", "台泥", "1", "2", "3", "4", "5", "6", "7", "8", ""],
          ["9999", "junk", "1", "2", "3", "4", "5", "6", "7", "8", ""]]] =
      parseDataMonthly
        [[["1101", "台泥", "1", "2", "3", "4", "5", "6", "7", "8", ""],
          ["8888", "other", "1", "2", "3", "4", "5", "6", "7", "8", ""]]] ∧
    parseDataMonthly
        [[["1101", "台泥", "1", "2", "3", "4", "5", "6", "7", "8", ""],
          ["9999", "junk", "1", "2", "3", "4", "5", "6", "7", "8", ""]], []] =
      parseDataMonthly
        [[["1101", "台泥", "1", "2", "3", "4", "5", "6", "7", "8", ""],
          ["8888", "other", "1", "2", "3", "4", "5", "6", "7", "8", ""]], []] :=
  ⟨C10_monthly_truncation.1 [] _ _,
   C10_monthly_truncation.2 []
     [[]] [["1101", "台泥", "1", "2", "3", "4", "5", "6", "7", "8", ""]]
     _ _ (by decide)⟩

/-! ## Claim C2: numeric normalizer rules -/

/-- C2, counterexample: the fractional normalizer `parseNum` (monthly
revenue percent/decimal fields) has no parenthesis handling — on
`"(1,234)"` the claim requires `-1234` but the parse fails and yields
`0`. -/
theorem C2_counterexample :
    parseNum "(1,234)" = 0 ∧ (0 : Dec) ≠ Dec.ofInt (-1234) := by
  constructor <;> decide

/-- C2, amended: the integral normalizer (`parseNumber`, capital and
cash-flow fields) applies the full ordered rules, including
parenthesis negation, and realizes all the listed examples; the
fractional normalizers (`parseNum` for revenue/percent fields,
`toNumCell` for price fields) only strip commas and trim before a
float parse whose failure yields `0`, so `"(1,234)"` yields `0` there;
whitespace-only input yields `0` everywhere and no normalizer raises. -/
theorem C2_amended :
    parseNumber "1,234,567" = 1234567 ∧
    parseNumber "(1,234)" = -1234 ∧
    parseNumber "-" = 0 ∧
    parseNumber "" = 0 ∧
    parseNumber "  42 " = 42 ∧
    (∀ v : String, jsTrim v = "" → parseNumber v = 0) ∧
    parseNum "1,234,567" = Dec.ofInt 1234567 ∧
    parseNum "(1,234)" = 0 ∧
    parseNum "-" = 0 ∧
    parseNum "" = 0 ∧
    parseNum "  42 " = Dec.ofInt 42 ∧
    toNumCell "(1,234)" = 0 ∧
    toNumCell "12.5" = ⟨125, 1⟩ := by
  refine ⟨by decide, by decide, by decide, by decide, by decide, ?_,
    by decide, by decide, by decide, by decide, by decide, by decide, by decide⟩
  intro v h
  unfold parseNumber
  rw [if_pos (Or.inr (Or.inr h))]

/-- C2, amended, witness for the whitespace-only rule. -/
theorem C2_amended_witness :
    jsTrim "   " = "" ∧ parseNumber "   " = 0 :=
  ⟨by decide, C2_amended.2.2.2.2.2.1 "   " (by decide)⟩

/-! ## Claim C5: quarter-to-storage-key translation and round trip -/

/-- C5: for every valid `YYYY-QN` string, `quarterToSqlDate` produces
the first day of month `3 * (quarter - 1) + 1` of that year, and the
(spec-modelled) inverse month-to-quarter mapping recovers the same
year string and quarter; in particular Q1 maps to the first-of-year
date and Q4 to the first day of the tenth month. -/
theorem C5_quarter_roundtrip (a b c d q : Char)
    (ha : a.isDigit = true) (hb : b.isDigit = true)
    (hc : c.isDigit = true) (hd : d.isDigit = true)
    (hq : q = '1' ∨ q = '2' ∨ q = '3' ∨ q = '4') :
    quarterToSqlDate ⟨[a, b, c, d, '-', 'Q', q]⟩ =
      some ⟨[a, b, c, d, '-'] ++ pad2 (3 * (q.toNat - '0'.toNat - 1) + 1) ++
        ['-', '0', '1']⟩ ∧
    storageDateToQuarter
        ⟨[a, b, c, d, '-'] ++ pad2 (3 * (q.toNat - '0'.toNat - 1) + 1) ++
          ['-', '0', '1']⟩ =
      some (⟨[a, b, c, d]⟩, q.toNat - '0'.toNat) ∧
    quarterToSqlDate "2024-Q1" = some "2024-01-01" ∧
    quarterToSqlDate "2024-Q4" = some "2024-10-01" := by
  rcases hq with rfl | rfl | rfl | rfl <;>
    refine ⟨?_, ?_, by decide, by decide⟩ <;>
    simp [quarterToSqlDate, quarterRegexMatch, storageDateToQuarter, pad2,
      ha, hb, hc, hd] <;>
    decide

/-- C5, witness at `2024-Q3`. -/
theorem C5_quarter_roundtrip_witness :
    quarterToSqlDate ⟨['2', '0', '2', '4', '-', 'Q', '3']⟩ =
      some ⟨['2', '0', '2', '4', '-'] ++
        pad2 (3 * ('3'.toNat - '0'.toNat - 1) + 1) ++ ['-', '0', '1']⟩ ∧
    storageDateToQuarter
        ⟨['2', '0', '2', '4', '-'] ++
          pad2 (3 * ('3'.toNat - '0'.toNat - 1) + 1) ++ ['-', '0', '1']⟩ =
      some (⟨['2', '0', '2', '4']⟩, '3'.toNat - '0'.toNat) ∧
    quarterToSqlDate "2024-Q1" = some "2024-01-01" ∧
    quarterToSqlDate "2024-Q4" = some "2024-10-01" :=
  C5_quarter_roundtrip '2' '0' '2' '4' '3' rfl rfl rfl rfl
    (Or.inr (Or.inr (Or.inl rfl)))

/-! ## Claim C9: numeric-field normalization on emitted records -/

/-- C9, counterexample: in the quarterly EPS extraction an unparseable
numeric cell (here the placeholder dash) does not normalize to `0` — it
causes the whole row to be dropped, so no record is emitted at all. -/
theorem C9_counterexample :
    parseDataEps [⟨["公司代號", "公司名稱", "基本每股盈餘（元）"],
        [["1101", "台泥", "-"]]⟩] = [] ∧
    ([] : List EpsRec) ≠ [⟨"1101", "台泥", 0⟩] := by
  constructor <;> decide

/-- C9, amended: every emitted record carries total (never-null)
numeric fields; an unparseable cell normalizes to `0` in the cash flow
(`parseNumber`), monthly revenue (`parseNum`) and daily price
(`toNumCell`) extractions, but in the EPS (and capital) extraction an
unparseable numeric cell drops the row instead. -/
theorem C9_amended :
    (∀ v : String, jsParseInt (cleanDigitsMinus v) = none → parseNumber v = 0) ∧
    (∀ v : String, jsParseFloat (jsTrim (stripCommas v)) = none →
      parseNum v = 0) ∧
    (∀ v : String, jsParseFloat (jsTrim (stripCommas v)) = none →
      toNumCell v = 0) ∧
    (∀ code name : String,
      parseDataEps [⟨["公司代號", "公司名稱", "基本每股盈餘（元）"],
        [[code, name, "-"]]⟩] = []) ∧
    (∀ code name : String,
      parseDataCapital [⟨["公司代號", "公司名稱", "股本"],
        [[code, name, "-"]]⟩] = []) := by
  refine ⟨?_, ?_, ?_, ?_, ?_⟩
  · intro v h
    unfold parseNumber
    split
    · rfl
    · simp only [h]
  · intro v h
    unfold parseNum
    simp only [h]
  · intro v h
    unfold toNumCell
    simp only [h]
  · intro code name
    have h0 : colIdx ["公司代號", "公司名稱", "基本每股盈餘（元）"] "公司代號" =
        some 0 := by decide
    have h1 : colIdx ["公司代號", "公司名稱", "基本每股盈餘（元）"] "公司名稱" =
        some 1 := by decide
    have h2 : colIdx ["公司代號", "公司名稱", "基本每股盈餘（元）"]
        "基本每股盈餘（元）" = some 2 := by decide
    have hc2 : cellAt [code, name, "-"] 2 = "-" := rfl
    have hp : jsParseFloat (stripCommas (jsTrim "-")) = none := by decide
    simp [parseDataEps, epsExtractTable, h0, h1, h2, hc2, hp]
  · intro code name
    have h0 : colIdx ["公司代號", "公司名稱", "股本"] "公司代號" = some 0 := by
      decide
    have h1 : colIdx ["公司代號", "公司名稱", "股本"] "公司名稱" = some 1 := by
      decide
    have h2 : colIdx ["公司代號", "公司名稱", "股本"] "股本" = some 2 := by
      decide
    have hc2 : cellAt [code, name, "-"] 2 = "-" := rfl
    have hp : jsParseInt (stripCommas (jsTrim "-")) = none := by decide
    simp [parseDataCapital, capitalExtractTable, h0, h1, h2, hc2, hp]

/-- C9, amended, witness at concrete inputs. -/
theorem C9_amended_witness :
    parseNumber "abc" = 0 ∧ parseNum "--" = 0 ∧ toNumCell "--" = 0 ∧
    parseDataEps [⟨["公司代號", "公司名稱", "基本每股盈餘（元）"],
        [["1102", "亞泥", "-"]]⟩] = [] ∧
    parseDataCapital [⟨["公司代號", "公司名稱", "股本"],
        [["1102", "亞泥", "-"]]⟩] = [] :=
  ⟨C9_amended.1 "abc" (by decide), C9_amended.2.1 "--" (by decide),
   C9_amended.2.2.1 "--" (by decide), C9_amended.2.2.2.1 "1102" "亞泥",
   C9_amended.2.2.2.2 "1102" "亞泥"⟩

/-! ## Claim C4: fetcher fault isolation and concatenation -/

/-- C4: every failure mode of a single outbound request — a thrown
transport error, a non-success HTTP status, a non-success source
status field, a `tables` value that is not an array, or a missing
target table — makes that fetcher return `[]` rather than propagate;
the crawl result is the concatenation of the two sources' results, and
one source's failure leaves the other's contribution intact. -/
theorem C4_fetcher_isolation :
    (fetchTwse .throw = []) ∧
    (∀ (s : Nat) (d : QuoteResponse), s ≠ 200 → fetchTwse (.resp s d) = []) ∧
    (∀ (s : Nat) (d : QuoteResponse), d.stat ≠ "OK" →
      fetchTwse (.resp s d) = []) ∧
    (∀ (s : Nat) (d : QuoteResponse), d.tables = none →
      fetchTwse (.resp s d) = []) ∧
    (∀ (s : Nat) (d : QuoteResponse) (ts : List RawTable),
      d.tables = some ts → ts.length ≤ 8 → fetchTwse (.resp s d) = []) ∧
    (fetchTpex .throw = []) ∧
    (∀ (s : Nat) (d : QuoteResponse), s ≠ 200 → fetchTpex (.resp s d) = []) ∧
    (∀ (s : Nat) (d : QuoteResponse), d.stat ≠ "ok" → d.stat ≠ "OK" →
      fetchTpex (.resp s d) = []) ∧
    (∀ (s : Nat) (d : QuoteResponse), d.tables = none →
      fetchTpex (.resp s d) = []) ∧
    (fetchFromSourceEps .throw = []) ∧
    (∀ (s : Nat) (h : List HTable), s ≠ 200 →
      fetchFromSourceEps (.resp s h) = []) ∧
    (fetchFromSourceEps (.resp 200 []) = []) ∧
    (∀ (env : SimpleEnv QuoteResponse DailyRec) (d : String),
      getByDateNoValidate env.dbRead = [] →
      env.stocksWrite = .ok → env.rowsWrite = .ok →
      (fetchDailyPrices env d).result =
        .ok (fetchTwse env.first ++ fetchTpex env.second)) ∧
    (∀ (env : SimpleEnv QuoteResponse DailyRec) (d : String),
      getByDateNoValidate env.dbRead = [] →
      env.stocksWrite = .ok → env.rowsWrite = .ok →
      (fetchDailyPrices { env with second := .throw } d).result =
        .ok (fetchTwse env.first)) := by
  have hconcat : ∀ (env : SimpleEnv QuoteResponse DailyRec) (d : String),
      getByDateNoValidate env.dbRead = [] →
      env.stocksWrite = .ok → env.rowsWrite = .ok →
      (fetchDailyPrices env d).result =
        .ok (fetchTwse env.first ++ fetchTpex env.second) := by
    intro env d hr hw1 hw2
    by_cases hlen : (fetchTwse env.first ++ fetchTpex env.second).length = 0
    · have : fetchTwse env.first ++ fetchTpex env.second = [] :=
        List.length_eq_zero.mp hlen
      simp [fetchDailyPrices, hr, hlen, this]
    · simp [fetchDailyPrices, hr, hlen, saveNoValidate, hw1, hw2]
      rw [if_neg (by simpa using hlen)]
  refine ⟨rfl, ?_, ?_, ?_, ?_, rfl, ?_, ?_, ?_, rfl, ?_, rfl, hconcat, ?_⟩
  · intro s d hs
    simp [fetchTwse, hs]
  · intro s d hstat
    simp [fetchTwse, hstat]
  · intro s d htab
    simp only [fetchTwse, htab]
    split <;> rfl
  · intro s d ts htab hlen
    simp only [fetchTwse, htab]
    split
    · rfl
    · rw [if_neg (by omega)]
  · intro s d hs
    simp [fetchTpex, hs]
  · intro s d h1 h2
    simp [fetchTpex, h1, h2]
  · intro s d htab
    simp only [fetchTpex, htab]
    split <;> rfl
  · intro s h hs
    simp [fetchFromSourceEps, hs]
  · intro env d hr hw1 hw2
    have := hconcat { env with second := .throw } d hr hw1 hw2
    simpa [fetchTpex] using this

/-- C4, witness at concrete failing outcomes. -/
theorem C4_fetcher_isolation_witness :
    fetchTwse (.resp 404 ⟨"OK", some []⟩) = [] ∧
    fetchTwse (.resp 200 ⟨"QUERY ERROR", some []⟩) = [] ∧
    fetchTwse (.resp 200 ⟨"OK", none⟩) = [] ∧
    fetchTwse (.resp 200 ⟨"OK", some []⟩) = [] ∧
    fetchTpex (.resp 200 ⟨"error", some []⟩) = [] ∧
    fetchFromSourceEps (.resp 500 []) = [] ∧
    (fetchDailyPrices ⟨.ok [], .resp 200 ⟨"OK", none⟩,
        .resp 200 ⟨"ok", none⟩, .ok, .ok⟩ "2024-01-02").result =
      .ok (fetchTwse (.resp 200 ⟨"OK", none⟩) ++
        fetchTpex (.resp 200 ⟨"ok", none⟩)) ∧
    (fetchDailyPrices ⟨.ok [], .resp 200 ⟨"OK", none⟩, .throw, .ok, .ok⟩
        "2024-01-02").result = .ok (fetchTwse (.resp 200 ⟨"OK", none⟩)) :=
  ⟨C4_fetcher_isolation.2.1 404 _ (by decide),
   C4_fetcher_isolation.2.2.1 200 _ (by decide),
   C4_fetcher_isolation.2.2.2.1 200 _ rfl,
   C4_fetcher_isolation.2.2.2.2.1 200 _ [] rfl (by decide),
   C4_fetcher_isolation.2.2.2.2.2.2.2.1 200 _ (by decide) (by decide),
   C4_fetcher_isolation.2.2.2.2.2.2.2.2.2.2.1 500 [] (by decide),
   C4_fetcher_isolation.2.2.2.2.2.2.2.2.2.2.2.2.1
     ⟨.ok [], .resp 200 ⟨"OK", none⟩, .resp 200 ⟨"ok", none⟩, .ok, .ok⟩
     "2024-01-02" rfl rfl rfl,
   C4_fetcher_isolation.2.2.2.2.2.2.2.2.2.2.2.2.2
     ⟨.ok [], .resp 200 ⟨"OK", none⟩, .throw, .ok, .ok⟩
     "2024-01-02" rfl rfl rfl⟩

/-! ## Claim C6: header-name resolution and column permutation -/

/-- Reading the permuted list at `j` is reading the original at `σ j`. -/
theorem permute_getD (n : Nat) (σ : Equiv.Perm (Fin n)) (l : List String)
    (j : Nat) (hj : j < n) :
    (permute n σ l).getD j "" = l.getD (σ ⟨j, hj⟩).val "" := by
  have hlen : j < (permute n σ l).length := by simpa [permute] using hj
  rw [List.getD_eq_getElem _ _ hlen]
  simp [permute]

/-- Function `colIdx` misses exactly when no header trims to the name. -/
theorem colIdx_none_iff (l : List String) (name : String) :
    colIdx l name = none ↔ ∀ x ∈ l, jsTrim x ≠ name := by
  induction l with
  | nil => simp [colIdx]
  | cons h t ih =>
    by_cases hh : jsTrim h = name
    · simp [colIdx, hh]
    · simp [colIdx, hh, ih]

/-- A hit of `colIdx` is in range and trims to the name. -/
theorem colIdx_some_spec (l : List String) (name : String) :
    ∀ i : Nat, colIdx l name = some i →
      i < l.length ∧ jsTrim (l.getD i "") = name := by
  induction l with
  | nil => intro i h; simp [colIdx] at h
  | cons h t ih =>
    intro i hcol
    by_cases hh : jsTrim h = name
    · simp [colIdx, hh] at hcol
      subst hcol
      simpa using hh
    · simp [colIdx, hh] at hcol
      obtain ⟨j, hj, rfl⟩ := hcol
      obtain ⟨h1, h2⟩ := ih j hj
      exact ⟨by simpa using Nat.succ_lt_succ h1, by simpa using h2⟩

/-- When the matching index is unique, `colIdx` finds it. -/
theorem colIdx_eq_some_of_unique (name : String) :
    ∀ (l : List String) (i : Nat), i < l.length →
      jsTrim (l.getD i "") = name →
      (∀ j, j < l.length → jsTrim (l.getD j "") = name → j = i) →
      colIdx l name = some i := by
  intro l
  induction l with
  | nil => intro i hi; exact absurd hi (by simp)
  | cons h t ih =>
    intro i hi hname huniq
    by_cases hh : jsTrim h = name
    · have h0 : (0 : Nat) = i := huniq 0 (by simp) (by simpa using hh)
      simp [colIdx, hh, ← h0]
    · cases i with
      | zero => exact absurd (by simpa using hname) hh
      | succ k =>
        have hk : k < t.length := by simpa using hi
        have hknm : jsTrim (t.getD k "") = name := by simpa using hname
        have huniq' : ∀ j, j < t.length → jsTrim (t.getD j "") = name →
            j = k := by
          intro j hj hjn
          have := huniq (j + 1) (by simpa using Nat.succ_lt_succ hj)
            (by simpa using hjn)
          omega
        simp [colIdx, hh, ih k hk hknm huniq']

/-- With pairwise-distinct trimmed headers, positions with equal
trimmed text coincide. -/
theorem jsTrim_getD_inj (headers : List String)
    (hnd : (headers.map jsTrim).Nodup) (i j : Nat)
    (hi : i < headers.length) (hj : j < headers.length)
    (h : jsTrim (headers.getD i "") = jsTrim (headers.getD j "")) : i = j := by
  have hi' : i < (headers.map jsTrim).length := by simpa using hi
  have hj' : j < (headers.map jsTrim).length := by simpa using hj
  have h2 : (headers.map jsTrim).get ⟨i, hi'⟩ =
      (headers.map jsTrim).get ⟨j, hj'⟩ := by
    rw [List.get_map, List.get_map]
    rw [List.getD_eq_getElem _ _ hi, List.getD_eq_getElem _ _ hj] at h
    simpa using h
  have h3 := hnd.get_inj_iff.mp h2
  simpa using congrArg Fin.val h3

/-- A found column moves to `σ.symm` of its index in the permuted
header. -/
theorem colIdx_permute_some (n : Nat) (σ : Equiv.Perm (Fin n))
    (headers : List String) (hl : headers.length = n)
    (hnd : (headers.map jsTrim).Nodup) (name : String) (i : Nat)
    (h : colIdx headers name = some i) :
    ∃ hi : i < n,
      colIdx (permute n σ headers) name = some (σ.symm ⟨i, hi⟩).val := by
  obtain ⟨hilen, hname⟩ := colIdx_some_spec headers name i h
  have hi : i < n := hl ▸ hilen
  refine ⟨hi, ?_⟩
  have hPlen : (permute n σ headers).length = n := by simp [permute]
  have hsymmlt : (σ.symm ⟨i, hi⟩).val < (permute n σ headers).length := by
    rw [hPlen]; exact (σ.symm ⟨i, hi⟩).isLt
  apply colIdx_eq_some_of_unique name (permute n σ headers) _ hsymmlt
  · rw [permute_getD n σ headers _ (σ.symm ⟨i, hi⟩).isLt]
    rw [Fin.eta, Equiv.apply_symm_apply]
    exact hname
  · intro j hj hjname
    have hjn : j < n := hPlen ▸ hj
    rw [permute_getD n σ headers j hjn] at hjname
    have hσjlt : (σ ⟨j, hjn⟩).val < headers.length := by
      rw [hl]; exact (σ ⟨j, hjn⟩).isLt
    have hval : (σ ⟨j, hjn⟩).val = i :=
      jsTrim_getD_inj headers hnd _ i hσjlt hilen (by rw [hjname, hname])
    have hfin : σ ⟨j, hjn⟩ = ⟨i, hi⟩ := Fin.ext hval
    have : (⟨j, hjn⟩ : Fin n) = σ.symm ⟨i, hi⟩ := by
      rw [← hfin, Equiv.symm_apply_apply]
    simpa using congrArg Fin.val this

/-- A missing column is still missing after permutation. -/
theorem colIdx_permute_none (n : Nat) (σ : Equiv.Perm (Fin n))
    (headers : List String) (hl : headers.length = n) (name : String)
    (h : colIdx headers name = none) :
    colIdx (permute n σ headers) name = none := by
  rw [colIdx_none_iff] at h ⊢
  intro x hx
  rw [permute, List.mem_ofFn] at hx
  obtain ⟨j, hj⟩ := hx
  have hj' : headers.getD (σ j).val "" = x := hj
  have hlt : (σ j).val < headers.length := by rw [hl]; exact (σ j).isLt
  refine h x ?_
  rw [← hj', List.getD_eq_getElem _ _ hlt]
  exact List.getElem_mem _

/-- Reading the permuted row at the permuted column index reads the
original cell. -/
theorem cellAt_permute (n : Nat) (σ : Equiv.Perm (Fin n)) (row : List String)
    (i : Nat) (hi : i < n) :
    cellAt (permute n σ row) (σ.symm ⟨i, hi⟩).val = cellAt row i := by
  unfold cellAt
  rw [permute_getD n σ row _ (σ.symm ⟨i, hi⟩).isLt]
  rw [Fin.eta, Equiv.apply_symm_apply]

/-- C6, counterexample: with a duplicated header name the claim fails —
swapping positions 0 and 3 leaves the header list literally unchanged
(both hold `公司代號`) while permuting the row cells correspondingly, yet
the emitted records change (the code field flips from `1111` to
`2222`). -/
theorem C6_counterexample :
    permute 4 (Equiv.swap 0 3)
        ["公司代號", "公司名稱", "基本每股盈餘（元）", "公司代號"] =
      ["公司代號", "公司名稱", "基本每股盈餘（元）", "公司代號"] ∧
    permute 4 (Equiv.swap 0 3) ["1111", "甲", "5", "2222"] =
      ["2222", "甲", "5", "1111"] ∧
    parseDataEps
        [⟨permute 4 (Equiv.swap 0 3)
            ["公司代號", "公司名稱", "基本每股盈餘（元）", "公司代號"],
          [permute 4 (Equiv.swap 0 3) ["1111", "甲", "5", "2222"]]⟩] ≠
      parseDataEps
        [⟨["公司代號", "公司名稱", "基本每股盈餘（元）", "公司代號"],
          [["1111", "甲", "5", "2222"]]⟩] := by
  refine ⟨by decide, by decide, by decide⟩

/-- One JS object assignment grows the key set by at most one. -/
theorem assignKey_length_le (obj : List (String × CellVal)) (k : String)
    (v : CellVal) : (assignKey obj k v).length ≤ obj.length + 1 := by
  unfold assignKey
  split <;> simp

/-- The assembled row object has at most one key per required column. -/
theorem buildRowObj_length_le (fields row : List String) :
    ∀ (cols keys : List String) (obj : List (String × CellVal)),
      (buildRowObj fields row cols keys obj).length ≤
        obj.length + cols.length := by
  intro cols
  induction cols with
  | nil => intro keys obj; simp [buildRowObj]
  | cons c cs ih =>
    intro keys obj
    simp only [buildRowObj]
    rcases haf : fieldIndex fields c with _ | oi
    · dsimp only
      have := ih keys.tail obj
      simp only [List.length_cons]
      omega
    · dsimp only
      by_cases hb : oi < row.length
      · rw [if_pos hb]
        have hstep := assignKey_length_le obj (keys.headD "")
          (convertCell (keys.headD "") (row.getD oi ""))
        have hrec := ih keys.tail (assignKey obj (keys.headD "")
          (convertCell (keys.headD "") (row.getD oi "")))
        simp only [List.length_cons]
        omega
      · rw [if_neg hb]
        have := ih keys.tail obj
        simp only [List.length_cons]
        omega

/-- If a required column name is absent from the field map, the
assembled row object misses at least one key. -/
theorem buildRowObj_length_lt (fields row : List String) (name : String) :
    ∀ (cols keys : List String) (obj : List (String × CellVal)),
      name ∈ cols → fieldIndex fields name = none →
      (buildRowObj fields row cols keys obj).length <
        obj.length + cols.length := by
  intro cols
  induction cols with
  | nil => intro keys obj h; simp at h
  | cons c cs ih =>
    intro keys obj hmem hmiss
    rcases List.mem_cons.mp hmem with rfl | hmem2
    · simp only [buildRowObj, hmiss]
      have := buildRowObj_length_le fields row cs keys.tail obj
      simp only [List.length_cons]
      omega
    · simp only [buildRowObj]
      rcases haf : fieldIndex fields c with _ | oi
      · dsimp only
        have := ih keys.tail obj hmem2 hmiss
        simp only [List.length_cons]
        omega
      · dsimp only
        by_cases hb : oi < row.length
        · rw [if_pos hb]
          have hstep := assignKey_length_le obj (keys.headD "")
            (convertCell (keys.headD "") (row.getD oi ""))
          have hrec := ih keys.tail (assignKey obj (keys.headD "")
            (convertCell (keys.headD "") (row.getD oi ""))) hmem2 hmiss
          simp only [List.length_cons]
          omega
        · rw [if_neg hb]
          have := ih keys.tail obj hmem2 hmiss
          simp only [List.length_cons]
          omega

/-- C6, amended: provided the trimmed header names are pairwise
distinct, permuting the header and correspondingly the row cells
leaves the emitted records unchanged (shown for the EPS extractor,
representative of the header-resolving extractors); and a table whose
header misses any required name contributes zero rows — the whole
table is skipped by the EPS and cash flow extractors, and the
daily-price extractor's completeness check drops every row of a table
whose field list misses a required column name. -/
theorem C6_amended :
    (∀ (n : Nat) (σ : Equiv.Perm (Fin n)) (headers : List String)
        (rows : List (List String)),
      headers.length = n → (headers.map jsTrim).Nodup →
      parseDataEps [⟨permute n σ headers, rows.map (permute n σ)⟩] =
        parseDataEps [⟨headers, rows⟩]) ∧
    (∀ t : HTable,
      colIdx t.headers "公司代號" = none ∨
        colIdx t.headers "公司名稱" = none ∨
        colIdx t.headers "基本每股盈餘（元）" = none →
      parseDataEps [t] = []) ∧
    (∀ t : HTable, (∃ c ∈ cashFlowColumns, colIdx t.headers c = none) →
      parseDataCashFlow [t] = []) ∧
    (∀ (t : RawTable) (name : String), name ∈ twseColumns →
      fieldIndex t.fields name = none →
      parseDataDaily t twseColumns twseKeys = []) := by
  refine ⟨?_, ?_, ?_, ?_⟩
  · intro n σ headers rows hl hnd
    rcases h0 : colIdx headers "公司代號" with _ | i0
    · have p0 := colIdx_permute_none n σ headers hl _ h0
      simp [parseDataEps, epsExtractTable, h0, p0]
    rcases h1 : colIdx headers "公司名稱" with _ | i1
    · have p1 := colIdx_permute_none n σ headers hl _ h1
      simp [parseDataEps, epsExtractTable, h1, p1]
    rcases h2 : colIdx headers "基本每股盈餘（元）" with _ | i2
    · have p2 := colIdx_permute_none n σ headers hl _ h2
      simp [parseDataEps, epsExtractTable, h2, p2]
    obtain ⟨hi0, p0⟩ := colIdx_permute_some n σ headers hl hnd _ i0 h0
    obtain ⟨hi1, p1⟩ := colIdx_permute_some n σ headers hl hnd _ i1 h1
    obtain ⟨hi2, p2⟩ := colIdx_permute_some n σ headers hl hnd _ i2 h2
    simp only [parseDataEps, epsExtractTable, h0, h1, h2, p0, p1, p2,
      List.flatMap_cons, List.flatMap_nil, List.append_nil]
    rw [List.filterMap_map]
    apply List.filterMap_congr
    intro row _
    simp only [Function.comp_apply]
    rw [cellAt_permute n σ row i0 hi0, cellAt_permute n σ row i1 hi1,
      cellAt_permute n σ row i2 hi2]
  · intro t hc
    unfold parseDataEps epsExtractTable
    simp only [List.flatMap_cons, List.flatMap_nil, List.append_nil]
    split
    · next i0 i1 i2 heq0 heq1 heq2 =>
      rcases hc with hc | hc | hc <;> simp_all
    · rfl
  · intro t hc
    obtain ⟨c, hcmem, hcnone⟩ := hc
    unfold parseDataCashFlow cashFlowExtractTable
    simp only [List.flatMap_cons, List.flatMap_nil, List.append_nil]
    split
    · next i0 i1 i2 i3 i4 i5 i6 i7 i8 heq0 heq1 heq2 heq3 heq4 heq5 heq6
        heq7 heq8 =>
      simp only [cashFlowColumns, List.mem_cons, List.not_mem_nil,
        or_false] at hcmem
      rcases hcmem with rfl | rfl | rfl | rfl | rfl | rfl | rfl | rfl | rfl <;>
        simp_all
    · rfl
  · intro t name hmem hmiss
    unfold parseDataDaily
    rw [List.filterMap_eq_nil]
    intro row _
    have hlt : (buildRowObj t.fields row twseColumns twseKeys []).length <
        [].length + twseColumns.length :=
      buildRowObj_length_lt t.fields row name twseColumns twseKeys [] hmem hmiss
    have hne : (buildRowObj t.fields row twseColumns twseKeys []).length ≠
        twseKeys.length := by
      have hcols : twseColumns.length = 7 := by decide
      have hkeys : twseKeys.length = 7 := by decide
      simp only [List.length_nil] at hlt
      omega
    simp only [if_pos hne]

/-- C6, amended, witness at concrete inputs. -/
theorem C6_amended_witness :
    parseDataEps
        [⟨permute 3 (Equiv.swap 0 2)
            ["公司代號", "公司名稱", "基本每股盈餘（元）"],
          ([["1101", "台泥", "5"]]).map (permute 3 (Equiv.swap 0 2))⟩] =
      parseDataEps [⟨["公司代號", "公司名稱", "基本每股盈餘（元）"],
        [["1101", "台泥", "5"]]⟩] ∧
    parseDataEps [⟨["公司名稱"], [["1101", "台泥", "5"]]⟩] = [] ∧
    parseDataCashFlow [⟨["何か"], [["x"]]⟩] = [] ∧
    parseDataDaily ⟨["證券名稱"], [["x"]]⟩ twseColumns twseKeys = [] :=
  ⟨C6_amended.1 3 (Equiv.swap 0 2)
     ["公司代號", "公司名稱", "基本每股盈餘（元）"] [["1101", "台泥", "5"]]
     rfl (by decide),
   C6_amended.2.1 ⟨["公司名稱"], [["1101", "台泥", "5"]]⟩ (Or.inl (by decide)),
   C6_amended.2.2.1 ⟨["何か"], [["x"]]⟩ ⟨"公司代號", by decide, by decide⟩,
   C6_amended.2.2.2 ⟨["證券名稱"], [["x"]]⟩ "證券代號" (by decide) (by decide)⟩

/-! ## Claim C7: identity-field filtering -/

/-- C7, counterexample: the daily-price extractor does not require
non-empty identity fields — a TWSE row whose security-code cell is
empty is still emitted (with an empty `code`), because the
completeness check only counts assigned keys. -/
theorem C7_counterexample :
    fetchTwse (.resp 200 ⟨"OK",
        some [⟨[], []⟩, ⟨[], []⟩, ⟨[], []⟩, ⟨[], []⟩, ⟨[], []⟩, ⟨[], []⟩,
          ⟨[], []⟩, ⟨[], []⟩,
          ⟨twseColumns, [["", "甲", "1", "2", "3", "4", "5"]]⟩]⟩) =
      [⟨"", "甲", 1, 2, 3, 4, 5⟩] ∧
    ([(⟨"", "甲", 1, 2, 3, 4, 5⟩ : DailyRec)] : List DailyRec) ≠ [] := by
  constructor <;> decide

/-- C7, amended: the HTML extractors (EPS, capital, cash flow, monthly
revenue) emit a record only when both trimmed identity fields are
non-empty; the daily-price JSON extractor instead emits any row whose
required fields are all present, even when the identity cells are
empty. -/
theorem C7_amended :
    (∀ (tables : List HTable) (r : EpsRec), r ∈ parseDataEps tables →
      r.code ≠ "" ∧ r.name ≠ "") ∧
    (∀ (tables : List HTable) (r : CapitalRec), r ∈ parseDataCapital tables →
      r.code ≠ "" ∧ r.name ≠ "") ∧
    (∀ (tables : List HTable) (r : CashFlowRec), r ∈ parseDataCashFlow tables →
      r.code ≠ "" ∧ r.name ≠ "") ∧
    (∀ (tables : List (List (List String))) (r : MonthlyRec),
      r ∈ parseDataMonthly tables → r.code ≠ "" ∧ r.name ≠ "") := by
  refine ⟨?_, ?_, ?_, ?_⟩
  · intro tables r hr
    simp only [parseDataEps, List.mem_flatMap] at hr
    obtain ⟨t, _, hrt⟩ := hr
    unfold epsExtractTable at hrt
    split at hrt
    · simp only [List.mem_filterMap] at hrt
      obtain ⟨cells, _, hcell⟩ := hrt
      split at hcell
      · exact absurd hcell (by simp)
      · split at hcell
        · next hcond =>
          obtain rfl := Option.some.inj hcell
          exact hcond
        · exact absurd hcell (by simp)
    · simp at hrt
  · intro tables r hr
    simp only [parseDataCapital, List.mem_flatMap] at hr
    obtain ⟨t, _, hrt⟩ := hr
    unfold capitalExtractTable at hrt
    split at hrt
    · simp only [List.mem_filterMap] at hrt
      obtain ⟨cells, _, hcell⟩ := hrt
      split at hcell
      · exact absurd hcell (by simp)
      · split at hcell
        · next hcond =>
          obtain rfl := Option.some.inj hcell
          exact hcond
        · exact absurd hcell (by simp)
    · simp at hrt
  · intro tables r hr
    simp only [parseDataCashFlow, List.mem_flatMap] at hr
    obtain ⟨t, _, hrt⟩ := hr
    unfold cashFlowExtractTable at hrt
    split at hrt
    · simp only [List.mem_filterMap] at hrt
      obtain ⟨cells, _, hcell⟩ := hrt
      split at hcell
      · next hcond =>
        obtain rfl := Option.some.inj hcell
        exact hcond
      · exact absurd hcell (by simp)
    · simp at hrt
  · intro tables r hr
    simp only [parseDataMonthly, List.mem_flatMap] at hr
    obtain ⟨rows, _, hrt⟩ := hr
    simp only [List.mem_filterMap] at hrt
    obtain ⟨tds, _, hcell⟩ := hrt
    unfold monthlyParseRow at hcell
    dsimp only at hcell
    split at hcell
    · exact absurd hcell (by simp)
    · split at hcell
      · next hcond =>
        obtain rfl := Option.some.inj hcell
        exact hcond
      · exact absurd hcell (by simp)

/-- C7, amended, witness: a record emitted by each HTML extractor has
non-empty identity fields. -/
theorem C7_amended_witness :
    ((⟨"1101", "台泥", ⟨5, 0⟩⟩ : EpsRec) ∈
        parseDataEps [⟨["公司代號", "公司名稱", "基本每股盈餘（元）"],
          [["1101", "台泥", "5"]]⟩] ∧
      ("1101" : String) ≠ "" ∧ ("台泥" : String) ≠ "") ∧
    ((⟨"1101", "台泥", 1, 2, 3, 4, 5, 6, 7, 8, none⟩ : MonthlyRec) ∈
        parseDataMonthly
          [[["1101", "台泥", "1", "2", "3", "4", "5", "6", "7", "8", ""],
            ["last", "row", "1", "2", "3", "4", "5", "6", "7", "8", ""]],
           []] ∧
      ("1101" : String) ≠ "" ∧ ("台泥" : String) ≠ "") :=
  ⟨⟨by decide,
    C7_amended.1 [⟨["公司代號", "公司名稱", "基本每股盈餘（元）"],
        [["1101", "台泥", "5"]]⟩] ⟨"1101", "台泥", ⟨5, 0⟩⟩ (by decide)⟩,
   ⟨by decide,
    C7_amended.2.2.2
      [[["1101", "台泥", "1", "2", "3", "4", "5", "6", "7", "8", ""],
        ["last", "row", "1", "2", "3", "4", "5", "6", "7", "8", ""]], []]
      ⟨"1101", "台泥", 1, 2, 3, 4, 5, 6, 7, 8, none⟩ (by decide)⟩⟩
